import Mathlib

/-
Verification of the webview python client's protocol layer: a shallow
embedding of the frame-splitting read loop, the message codec interface,
the request/response correlator, the event router and the public facade
from `src/clients/python/src/justbe_webview/__init__.py` (with the legacy
client `src/clients/python/main.py` where noted), together with theorems
settling the specified properties.

Bytes are modelled as `Nat`; the frame delimiter is the newline byte 10,
as in `recv` which splits `self.buffer` on `b"\n"`.
-/

set_option autoImplicit false

namespace Webview

/-- The frame delimiter byte: `recv` splits the buffer on `b"\n"` (byte 10). -/
def NL : Nat := 10

/-- `buffer.split(b"\n", 1)`: the bytes before the first delimiter and the
bytes after it, or `none` when no delimiter is present (the `while b"\n" in
self.buffer` guard fails). -/
def splitFirst : List Nat → Option (List Nat × List Nat)
  | [] => none
  | b :: bs =>
    if b = NL then some ([], bs)
    else
      match splitFirst bs with
      | some (f, r) => some (b :: f, r)
      | none => none

theorem splitFirst_noNL {bs : List Nat} (h : NL ∉ bs) : splitFirst bs = none := by
  induction bs with
  | nil => rfl
  | cons b bs ih =>
    simp only [List.mem_cons, not_or] at h
    simp only [splitFirst, if_neg (Ne.symm h.1), ih h.2]

theorem splitFirst_append {f : List Nat} (r : List Nat) (hf : NL ∉ f) :
    splitFirst (f ++ NL :: r) = some (f, r) := by
  induction f with
  | nil => simp [splitFirst]
  | cons b bs ih =>
    simp only [List.mem_cons, not_or] at hf
    simp only [List.cons_append, splitFirst, if_neg (Ne.symm hf.1), List.append_eq, ih hf.2]

theorem splitFirst_some {bs f r : List Nat} (h : splitFirst bs = some (f, r)) :
    bs = f ++ NL :: r ∧ NL ∉ f := by
  induction bs generalizing f r with
  | nil => simp [splitFirst] at h
  | cons b bs ih =>
    by_cases hb : b = NL
    · simp only [splitFirst, if_pos hb, Option.some.injEq, Prod.mk.injEq] at h
      obtain ⟨h1, h2⟩ := h
      subst h1; subst h2; subst hb
      simp
    · simp only [splitFirst, if_neg hb] at h
      cases hs : splitFirst bs with
      | none => simp [hs] at h
      | some p =>
        obtain ⟨f', r'⟩ := p
        simp only [hs, Option.some.injEq, Prod.mk.injEq] at h
        obtain ⟨h1, h2⟩ := h
        subst h2
        obtain ⟨hbs, hnf⟩ := ih hs
        subst hbs
        rw [← h1]
        exact ⟨by simp, by simp [hnf, Ne.symm hb]⟩

/-- Typed result payloads of a `ResultResponse` (`StringResultType`,
`BooleanResultType`, `SizeResultType`).  Modelled from the spec: the schema
module `justbe_webview/schemas.py` is not under `src/`; string payloads are
modelled as byte lists. -/
inductive ResultValue
  | string (s : List Nat)
  | boolean (b : Bool)
  | size (width height scaleFactor : Nat)
deriving DecidableEq, Repr

/-- Response outcome: `AckResponse | ResultResponse | ErrResponse`.
Modelled from the spec (schema module absent from `src/`). -/
inductive Outcome
  | ack
  | result (value : ResultValue)
  | err (message : List Nat)
deriving DecidableEq, Repr

/-- Notifications: `StartedNotification {version} | ClosedNotification |
IpcNotification {message}`.  Modelled from the spec (schema module absent
from `src/`). -/
inductive Notification
  | started (version : List Nat)
  | closed
  | ipc (message : List Nat)
deriving DecidableEq, Repr

/-- The msgspec struct tag used as the event name
(`notification.__struct_config__.tag`).  Modelled from the spec's event
kinds `started`, `closed`, `ipc`. -/
def Notification.tag : Notification → String
  | .started _ => "started"
  | .closed => "closed"
  | .ipc _ => "ipc"

/-- Top-level wire message: `NotificationMessage` or `ResponseMessage`
(responses echo the client-assigned integer id).  Modelled from the spec
(schema module absent from `src/`). -/
inductive Message
  | notification (data : Notification)
  | response (id : Nat) (outcome : Outcome)
deriving DecidableEq, Repr

/-- Modelled from the spec: `msgspec.json.decode(message, type=WebViewMessage)`
for the schema types of the absent `justbe_webview/schemas.py`, as a concrete
discriminant-tag codec — an explicit top-level tag byte (0 notification,
1 response), then a nested tag; decode fails (`none`, the code's
`msgspec.DecodeError`) on any unrecognized discriminant or malformed payload. -/
def decodeOutcome : List Nat → Option Outcome
  | [0] => some Outcome.ack
  | 1 :: 0 :: s => some (Outcome.result (ResultValue.string s))
  | [1, 1, 0] => some (Outcome.result (ResultValue.boolean false))
  | [1, 1, 1] => some (Outcome.result (ResultValue.boolean true))
  | [1, 2, w, h, sf] => some (Outcome.result (ResultValue.size w h sf))
  | 2 :: m => some (Outcome.err m)
  | _ => none

/-- Modelled from the spec: top-level decode, see `decodeOutcome`. -/
def decodeMessage : List Nat → Option Message
  | 0 :: 0 :: ver => some (Message.notification (Notification.started ver))
  | [0, 1] => some (Message.notification Notification.closed)
  | 0 :: 2 :: msg => some (Message.notification (Notification.ipc msg))
  | 1 :: i :: rest => (decodeOutcome rest).map (Message.response i)
  | _ => none

/-- The correlator table behind `self.internal_event`: one entry per
`internal_event.once(str(request.id), set_result)` registration, keyed by the
request id; `none` while the `asyncio.Future` is pending, `some o` once
`set_result` has delivered outcome `o`. -/
abbrev Table := List (Nat × Option Outcome)

/-- `send`'s registration step: `internal_event.once(str(request.id), set_result)`. -/
def register (t : Table) (id : Nat) : Table := t ++ [(id, none)]

/-- The table after a sequence of `send` registrations, starting empty. -/
def registerAll (ids : List Nat) : Table := ids.foldl register []

/-- `recv`'s response routing: `internal_event.emit(str(msg.data.id), msg.data)`.
The pyee once-handler for that key — if any is still registered — is removed
and invoked, setting the future's result; an id with no registered pending
waiter leaves every entry unchanged. -/
def resolve (t : Table) (id : Nat) (o : Outcome) : Table :=
  t.map fun e => if e.1 = id ∧ e.2 = none then (e.1, some o) else e

/-- Deliver a list of responses (id, outcome) in arrival order. -/
def deliverAll (t : Table) (rs : List (Nat × Outcome)) : Table :=
  rs.foldl (fun t r => resolve t r.1 r.2) t

/-- The evolution of a single waiter entry under a list of deliveries. -/
def deliverEntry (e : Nat × Option Outcome) : List (Nat × Outcome) → Nat × Option Outcome
  | [] => e
  | r :: rs => deliverEntry (if e.1 = r.1 ∧ e.2 = none then (e.1, some r.2) else e) rs

theorem registerAll_eq (ids : List Nat) :
    registerAll ids = ids.map fun i => (i, none) := by
  suffices h : ∀ t : Table, ids.foldl register t = t ++ ids.map fun i => (i, none) by
    simpa [registerAll] using h []
  induction ids with
  | nil => intro t; simp
  | cons i ids ih => intro t; simp [register, ih]

theorem deliverAll_map (rs : List (Nat × Outcome)) (t : Table) :
    deliverAll t rs = t.map fun e => deliverEntry e rs := by
  induction rs generalizing t with
  | nil => simp [deliverAll, deliverEntry]
  | cons r rs ih =>
    show deliverAll (resolve t r.1 r.2) rs = _
    rw [ih, resolve, List.map_map]
    rfl

theorem deliverEntry_resolved (rs : List (Nat × Outcome)) (i : Nat) (o : Outcome) :
    deliverEntry (i, some o) rs = (i, some o) := by
  induction rs with
  | nil => rfl
  | cons r rs ih => simp [deliverEntry, ih]

theorem deliverEntry_pending (rs : List (Nat × Outcome)) (i : Nat) :
    deliverEntry (i, none) rs = (i, (rs.find? fun r => r.1 == i).map Prod.snd) := by
  induction rs with
  | nil => rfl
  | cons r rs ih =>
    by_cases hir : i = r.1
    · simp [deliverEntry, hir, deliverEntry_resolved, List.find?]
    · have : (r.1 == i) = false := by simp [Ne.symm hir]
      simp [deliverEntry, hir, ih, List.find?, this]

theorem resolve_not_mem {j : Nat} (o : Outcome) :
    ∀ t : Table, j ∉ t.map Prod.fst → resolve t j o = t := by
  intro t
  induction t with
  | nil => intro _; rfl
  | cons e t ih =>
    intro h
    simp only [List.map_cons, List.mem_cons, not_or] at h
    have he : ¬(e.1 = j ∧ e.2 = none) := fun hc => h.1 hc.1.symm
    simp only [resolve, List.map_cons, if_neg he]
    exact congrArg (e :: ·) (ih h.2)

/-- One pass of `recv`'s inner `while b"\n" in self.buffer` loop, with a fuel
bound so the recursion is structural: split off the frame before the first
delimiter, decode it, return a decoded notification's data immediately
(leaving the unsplit remainder in the buffer), route a decoded response to the
correlator and keep scanning, and skip (only log) a `DecodeError`.  The fuel
is an upper bound on the number of iterations; `processBuffer` supplies
`buffer.length`, which always suffices because each split strictly shortens
the buffer. -/
def processBufferF (dec : List Nat → Option Message) :
    Nat → List Nat → Table → Option Notification × List Nat × Table
  | 0, buffer, t => (none, buffer, t)
  | fuel + 1, buffer, t =>
    match splitFirst buffer with
    | none => (none, buffer, t)
    | some (msg, rest) =>
      match dec msg with
      | some (Message.notification n) => (some n, rest, t)
      | some (Message.response i o) => processBufferF dec fuel rest (resolve t i o)
      | none => processBufferF dec fuel rest t

/-- `recv`'s inner loop over one buffer state (see `processBufferF`). -/
def processBuffer (dec : List Nat → Option Message) (buffer : List Nat) (t : Table) :
    Option Notification × List Nat × Table :=
  processBufferF dec buffer.length buffer t

theorem processBufferF_fuel (dec : List Nat → Option Message) :
    ∀ fuel₁ fuel₂ buffer t, buffer.length ≤ fuel₁ → buffer.length ≤ fuel₂ →
      processBufferF dec fuel₁ buffer t = processBufferF dec fuel₂ buffer t := by
  intro fuel₁
  induction fuel₁ with
  | zero =>
    intro fuel₂ buffer t h1 _
    have hb : buffer = [] := List.length_eq_zero.mp (Nat.le_zero.mp h1)
    subst hb
    cases fuel₂ with
    | zero => rfl
    | succ f => simp [processBufferF, splitFirst]
  | succ f₁ ih =>
    intro fuel₂ buffer t h1 h2
    cases buffer with
    | nil =>
      cases fuel₂ with
      | zero => rfl
      | succ f => simp [processBufferF, splitFirst]
    | cons x xs =>
      obtain ⟨f₂, rfl⟩ : ∃ f, fuel₂ = f + 1 := by
        cases fuel₂ with
        | zero => simp at h2
        | succ f => exact ⟨f, rfl⟩
      unfold processBufferF
      split
      · rfl
      · rename_i msg rest hs
        have hrest : rest.length < (x :: xs).length := by
          obtain ⟨heq, -⟩ := splitFirst_some hs
          rw [heq]
          simp only [List.length_append, List.length_cons]
          omega
        split
        · rfl
        · exact ih f₂ rest _ (by omega) (by omega)
        · exact ih f₂ rest _ (by omega) (by omega)

theorem processBuffer_noNL {dec : List Nat → Option Message} {buffer : List Nat}
    (t : Table) (h : NL ∉ buffer) : processBuffer dec buffer t = (none, buffer, t) := by
  cases buffer with
  | nil => rfl
  | cons b bs => simp [processBuffer, processBufferF, splitFirst_noNL h]

theorem processBuffer_nil (dec : List Nat → Option Message) (t : Table) :
    processBuffer dec [] t = (none, [], t) := rfl

/-- Unfolding of the inner loop at a complete frame decoding to a
notification: the notification is returned and the remainder stays buffered. -/
theorem processBuffer_cons_notif {dec : List Nat → Option Message} {f : List Nat}
    {n : Notification} (rest : List Nat) (t : Table) (hf : NL ∉ f)
    (hd : dec f = some (Message.notification n)) :
    processBuffer dec (f ++ NL :: rest) t = (some n, rest, t) := by
  have hlen : (f ++ NL :: rest).length = f.length + rest.length + 1 := by
    simp only [List.length_append, List.length_cons]
    omega
  rw [processBuffer, hlen]
  simp only [processBufferF, splitFirst_append rest hf, hd]

/-- Unfolding of the inner loop at a complete frame decoding to a response:
the response is routed to the correlator and scanning continues. -/
theorem processBuffer_cons_resp {dec : List Nat → Option Message} {f : List Nat}
    {i : Nat} {o : Outcome} (rest : List Nat) (t : Table) (hf : NL ∉ f)
    (hd : dec f = some (Message.response i o)) :
    processBuffer dec (f ++ NL :: rest) t = processBuffer dec rest (resolve t i o) := by
  have hlen : (f ++ NL :: rest).length = f.length + rest.length + 1 := by
    simp only [List.length_append, List.length_cons]
    omega
  rw [processBuffer, hlen]
  simp only [processBufferF, splitFirst_append rest hf, hd]
  exact processBufferF_fuel dec _ _ rest _ (by omega) (Nat.le_refl _)

/-- Unfolding of the inner loop at a complete frame that fails to decode:
the `DecodeError` is only logged and scanning continues with the remainder. -/
theorem processBuffer_cons_err {dec : List Nat → Option Message} {f : List Nat}
    (rest : List Nat) (t : Table) (hf : NL ∉ f) (hd : dec f = none) :
    processBuffer dec (f ++ NL :: rest) t = processBuffer dec rest t := by
  have hlen : (f ++ NL :: rest).length = f.length + rest.length + 1 := by
    simp only [List.length_append, List.length_cons]
    omega
  rw [processBuffer, hlen]
  simp only [processBufferF, splitFirst_append rest hf, hd]
  exact processBufferF_fuel dec _ _ rest _ (by omega) (Nat.le_refl _)

/-- The three ways one call to `recv` can come back: a decoded notification
(`return msg.data`), end-of-stream (`return None` on an empty chunk), or
suspended forever awaiting bytes that never arrive (the model's marker for
`await self.stdout_reader.read(8192)` blocking with no data left). -/
inductive RecvResult
  | notif (n : Notification)
  | eof
  | blocked
deriving DecidableEq, Repr

/-- `WebView.recv`: the outer `while True` read loop.  The live stream is
modelled as the list of chunks successive reads return; an empty chunk is
end-of-stream.  Returns the result, the final `self.buffer`, the final
correlator table, and the chunks not yet consumed. -/
def recvAux (dec : List Nat → Option Message) :
    List (List Nat) → List Nat → Table → RecvResult × List Nat × Table × List (List Nat)
  | [], buffer, t => (RecvResult.blocked, buffer, t, [])
  | c :: cs, buffer, t =>
    if c = [] then (RecvResult.eof, buffer, t, cs)
    else
      match processBuffer dec (buffer ++ c) t with
      | (some n, buf, t2) => (RecvResult.notif n, buf, t2, cs)
      | (none, buf, t2) => recvAux dec cs buf t2

/-- The outcome of feeding exactly one delimited frame `f` to the read loop:
a notification is returned, a response is routed to the correlator and the
loop then blocks awaiting more bytes, a decode failure is skipped and the
loop blocks. -/
def recvFrame (dec : List Nat → Option Message) (f : List Nat) (t : Table) :
    RecvResult × List Nat × Table × List (List Nat) :=
  match dec f with
  | some (Message.notification n) => (RecvResult.notif n, [], t, [])
  | some (Message.response i o) => (RecvResult.blocked, [], resolve t i o, [])
  | none => (RecvResult.blocked, [], t, [])

/-- The concatenation of a chunk sequence. -/
def chunksJoin : List (List Nat) → List Nat
  | [] => []
  | c :: cs => c ++ chunksJoin cs

/-- Feeding any chunk partition of one delimited frame to the read loop
behaves exactly like feeding the frame whole: the buffered prefix grows until
the delimiter arrives, and the assembled frame is decoded once. -/
theorem recvAux_feed (dec : List Nat → Option Message) :
    ∀ (chunks : List (List Nat)) (acc q : List Nat) (t : Table),
      (∀ c ∈ chunks, c ≠ []) → NL ∉ acc → NL ∉ q → chunksJoin chunks = q ++ [NL] →
      recvAux dec chunks acc t = recvFrame dec (acc ++ q) t := by
  intro chunks
  induction chunks with
  | nil =>
    intro acc q t _ _ _ hjoin
    exact absurd hjoin.symm (List.append_ne_nil_of_right_ne_nil q (by simp))
  | cons c cs ih =>
    intro acc q t hne hacc hq hjoin
    have hc : c ≠ [] := hne c (by simp)
    cases cs with
    | nil =>
      simp only [chunksJoin, List.append_nil] at hjoin
      subst hjoin
      have hq' : NL ∉ acc ++ q := by simp [hacc, hq]
      have hbuf : acc ++ (q ++ [NL]) = (acc ++ q) ++ NL :: [] := by simp
      cases hd : dec (acc ++ q) with
      | none =>
        have step : recvAux dec [q ++ [NL]] acc t = recvAux dec [] [] t := by
          unfold recvAux
          rw [if_neg hc, hbuf, processBuffer_cons_err [] t hq' hd, processBuffer_nil]
          rfl
        rw [step]
        simp [recvAux, recvFrame, hd]
      | some m =>
        cases m with
        | notification n =>
          have step : recvAux dec [q ++ [NL]] acc t
              = (RecvResult.notif n, [], t, []) := by
            unfold recvAux
            rw [if_neg hc, hbuf, processBuffer_cons_notif [] t hq' hd]
          rw [step]
          simp [recvFrame, hd]
        | response i o =>
          have step : recvAux dec [q ++ [NL]] acc t
              = recvAux dec [] [] (resolve t i o) := by
            unfold recvAux
            rw [if_neg hc, hbuf, processBuffer_cons_resp [] t hq' hd, processBuffer_nil]
            rfl
          rw [step]
          simp [recvAux, recvFrame, hd]
    | cons c' cs' =>
      have hjoin' : c ++ chunksJoin (c' :: cs') = q ++ [NL] := hjoin
      have hflat : chunksJoin (c' :: cs') ≠ [] := by
        have : c' ≠ [] := hne c' (by simp)
        cases c' with
        | nil => exact absurd rfl this
        | cons x xs => simp [chunksJoin]
      obtain ⟨mid, lastb, hmid⟩ : ∃ l b, chunksJoin (c' :: cs') = l ++ [b] := by
        rcases List.eq_nil_or_concat (chunksJoin (c' :: cs')) with h | ⟨l, b, h⟩
        · exact absurd h hflat
        · exact ⟨l, b, by simpa [List.concat_eq_append] using h⟩
      rw [hmid, ← List.append_assoc] at hjoin'
      obtain ⟨hq2, hb⟩ := List.append_inj' hjoin' rfl
      have hlast : lastb = NL := by simpa using hb
      subst hlast
      have hcq : NL ∉ c := fun h => hq (hq2 ▸ List.mem_append_left mid h)
      have hmidq : NL ∉ mid := fun h => hq (hq2 ▸ List.mem_append_right c h)
      have step : recvAux dec (c :: c' :: cs') acc t
          = recvAux dec (c' :: cs') (acc ++ c) t := by
        conv =>
          lhs
          unfold recvAux
        rw [if_neg hc, processBuffer_noNL t (by simp [hacc, hcq])]
      rw [step]
      have := ih (acc ++ c) mid t (fun x hx => hne x (List.mem_cons_of_mem c hx))
        (by simp [hacc, hcq]) hmidq (hmid ▸ rfl)
      rw [this, List.append_assoc, hq2]

/-- A handler registered on the `external_event` emitter: the event name it
was registered under, an identifier for the callback, and whether it was
registered with `once` (auto-removed after its first invocation) rather than
`on`. -/
structure Handler where
  event : String
  hid : Nat
  once : Bool
deriving DecidableEq, Repr

/-- `external_event.emit(tag, notification)` (pyee `AsyncIOEventEmitter`):
every handler currently registered for `tag` is invoked, in registration
order; handlers registered with `once` are removed.  Returns the new registry
and the invocations performed as (callback id, notification) pairs. -/
def emit (reg : List Handler) (tag : String) (n : Notification) :
    List Handler × List (Nat × Notification) :=
  (reg.filter fun h => !(h.event == tag && h.once),
   (reg.filter fun h => h.event == tag).map fun h => (h.hid, n))

/-- Emit a sequence of notifications (each under its own tag, as
`process_message_loop` does), accumulating all handler invocations. -/
def emitSeq (reg : List Handler) : List Notification → List Handler × List (Nat × Notification)
  | [] => (reg, [])
  | n :: ns =>
    let e := emit reg n.tag n
    let rest := emitSeq e.1 ns
    (rest.1, e.2 ++ rest.2)

/-- How `process_message_loop` came to return: end-of-stream (`recv` returned
`None`), a decoded `ClosedNotification`, or (in the model) the stream ran dry
without either, where the real loop would stay suspended in a read. -/
inductive LoopExit
  | eof
  | closedExit
  | blocked
deriving DecidableEq, Repr

/-- Final state of one `process_message_loop` run: why it stopped, the final
`self.buffer`, the correlator table, the handler registry, the notifications
routed to `external_event.emit` in order, the handler invocations performed,
and the chunks never consumed. -/
structure LoopOut where
  exit : LoopExit
  buffer : List Nat
  table : Table
  handlers : List Handler
  routed : List Notification
  calls : List (Nat × Notification)
  chunksLeft : List (List Nat)
deriving DecidableEq, Repr

/-- `process_message_loop` with explicit fuel so the recursion is structural:
`await recv()`; on `None` return; route the notification to
`external_event.emit(tag, notification)`; return after routing a
`ClosedNotification`; otherwise loop.  Each continuing iteration consumes at
least one chunk, so fuel `chunks.length + 1` (as supplied by
`process_message_loop`) always suffices. -/
def msgLoopF (dec : List Nat → Option Message) :
    Nat → List (List Nat) → List Nat → Table → List Handler →
      List Notification → List (Nat × Notification) → LoopOut
  | 0, chunks, buffer, t, hs, routed, calls =>
    ⟨LoopExit.blocked, buffer, t, hs, routed, calls, chunks⟩
  | fuel + 1, chunks, buffer, t, hs, routed, calls =>
    match recvAux dec chunks buffer t with
    | (RecvResult.eof, buf, t2, rest) => ⟨LoopExit.eof, buf, t2, hs, routed, calls, rest⟩
    | (RecvResult.blocked, buf, t2, rest) =>
      ⟨LoopExit.blocked, buf, t2, hs, routed, calls, rest⟩
    | (RecvResult.notif n, buf, t2, rest) =>
      let e := emit hs n.tag n
      if n = Notification.closed then
        ⟨LoopExit.closedExit, buf, t2, e.1, routed ++ [n], calls ++ e.2, rest⟩
      else msgLoopF dec fuel rest buf t2 e.1 (routed ++ [n]) (calls ++ e.2)

/-- `WebView.process_message_loop` (also `wait_until_closed`): drive `recv`
until end-of-stream or a `ClosedNotification`, routing every received
notification to the external emitter. -/
def process_message_loop (dec : List Nat → Option Message) (chunks : List (List Nat))
    (buffer : List Nat) (t : Table) (hs : List Handler) : LoopOut :=
  msgLoopF dec (chunks.length + 1) chunks buffer t hs [] []

/-- The statically expected kind of a `ResultResponse` payload
(`expected_type` in `return_result`). -/
inductive ResultKind
  | string
  | boolean
  | size
deriving DecidableEq, Repr

/-- The kind tag of a result payload (which `XxxResultType` it is). -/
def ResultValue.kind : ResultValue → ResultKind
  | .string _ => ResultKind.string
  | .boolean _ => ResultKind.boolean
  | .size _ _ _ => ResultKind.size

/-- The distinct `ValueError` shapes raised by `return_result` / `return_ack`:
`expectedResult` is `return_result`'s single failure message (`f"Expected
{expected_type.__name__} result got: {result}"`, embedding the whole received
outcome), `remote` is `return_ack`'s `ValueError(result.message)` for an
`ErrResponse`, and `unexpectedResponseType` is `return_ack`'s final
`ValueError(f"Unexpected response type: {type(result).__name__}")`. -/
inductive UnwrapError
  | expectedResult (expected : ResultKind) (got : Outcome)
  | remote (message : List Nat)
  | unexpectedResponseType (got : Outcome)
deriving DecidableEq, Repr

/-- `return_result(result, expected_type)`: a `ResultResponse` whose payload
is an instance of the expected type yields `result.result.value`; every other
outcome — `AckResponse`, `ErrResponse`, or a `ResultResponse` of another kind
— raises the one generic `ValueError`. -/
def return_result (expected : ResultKind) (result : Outcome) : Except UnwrapError ResultValue :=
  match result with
  | Outcome.result v =>
    if v.kind = expected then Except.ok v
    else Except.error (UnwrapError.expectedResult expected result)
  | _ => Except.error (UnwrapError.expectedResult expected result)

/-- `return_ack(result)`: `AckResponse` is void success, `ErrResponse` raises
`ValueError(result.message)`, anything else raises the unexpected-type
`ValueError`. -/
def return_ack (result : Outcome) : Except UnwrapError Unit :=
  match result with
  | Outcome.ack => Except.ok ()
  | Outcome.err m => Except.error (UnwrapError.remote m)
  | _ => Except.error (UnwrapError.unexpectedResponseType result)

/-- The session configuration consulted by `on`/`once`:
`getattr(self.options, "ipc", False)`.  Modelled from the spec's capability
gate (the options schema lives in the absent schema module; `main.py`'s
`WebViewOptions` TypedDict carries the same optional `ipc` flag). -/
structure WebViewOptions where
  ipc : Bool := false
deriving DecidableEq, Repr

/-- The client-visible state of one `WebView`: whether `__start_process` has
run (`self.process is not None`), the correlator table behind
`internal_event`, the `external_event` handler registry, `self.buffer`, the
bytes written to the child's stdin, and whether `destroy` has terminated the
process. -/
structure WVState where
  processStarted : Bool
  table : Table
  handlers : List Handler
  buffer : List Nat
  written : List Nat
  terminated : Bool
deriving DecidableEq, Repr

/-- The synchronous prefix of `WebView.send`: raise `RuntimeError` if the
process was never started; otherwise register a once-waiter for the request
id on `internal_event` and write the encoded request plus the `b"\n"`
delimiter to the child's stdin.  (`await future` then suspends the caller
until `recv` resolves that id.) -/
def WebView.send (st : WVState) (reqId : Nat) (reqBytes : List Nat) : Except String WVState :=
  if st.processStarted = false then Except.error "Webview process not started"
  else
    Except.ok { st with
      table := register st.table reqId,
      written := st.written ++ reqBytes ++ [NL] }

/-- `WebView.recv` as a method: raise `RuntimeError` if the process was never
started; otherwise run the read loop `recvAux` on the live chunk stream. -/
def WebView.recv (st : WVState) (chunks : List (List Nat)) :
    Except String (RecvResult × WVState × List (List Nat)) :=
  if st.processStarted = false then Except.error "Webview process not started"
  else
    let r := recvAux decodeMessage chunks st.buffer st.table
    Except.ok (r.1, { st with buffer := r.2.1, table := r.2.2.1 }, r.2.2.2)

/-- `WebView.destroy`: raise `RuntimeError` if the process was never started;
otherwise `terminate()` the child and `wait()` for it. -/
def WebView.destroy (st : WVState) : Except String WVState :=
  if st.processStarted = false then Except.error "Webview process not started"
  else Except.ok { st with terminated := true }

/-- `WebView.on(event, callback)`: the local `ipc` capability gate, then a
persistent registration on `external_event`. -/
def WebView.on (opts : WebViewOptions) (event : String) (hid : Nat) (st : WVState) :
    Except String WVState :=
  if event = "ipc" ∧ opts.ipc = false then
    Except.error "IPC is not enabled for this webview"
  else Except.ok { st with handlers := st.handlers ++ [⟨event, hid, false⟩] }

/-- `WebView.once(event, callback)`: the same gate, then a single-shot
registration on `external_event`. -/
def WebView.once (opts : WebViewOptions) (event : String) (hid : Nat) (st : WVState) :
    Except String WVState :=
  if event = "ipc" ∧ opts.ipc = false then
    Except.error "IPC is not enabled for this webview"
  else Except.ok { st with handlers := st.handlers ++ [⟨event, hid, true⟩] }

/-- The `WebView.message_id` property of the packaged client: return the
current private counter and post-increment it. -/
def message_id (counter : Nat) : Nat × Nat := (counter, counter + 1)

/-- The id handed to the n-th request when the counter starts at `counter`
(each public operation reads `self.message_id` once). -/
def msgIdAt (counter : Nat) : Nat → Nat
  | 0 => (message_id counter).1
  | n + 1 => msgIdAt (message_id counter).2 n

/-- The request id allocated by the legacy client `main.py`'s `WebView.send`
for its n-th call: `request_id = "unique_id"` on every call (the code's own
comment reads `Replace with actual ULID implementation`). -/
def mainRequestId (_call : Nat) : String := "unique_id"

theorem deliverAll_registerAll (ids : List Nat) (rs : List (Nat × Outcome)) :
    deliverAll (registerAll ids) rs
      = ids.map fun i => (i, (rs.find? fun r => r.1 == i).map Prod.snd) := by
  rw [deliverAll_map, registerAll_eq, List.map_map]
  apply List.map_congr_left
  intro i _
  show deliverEntry (i, none) rs = _
  exact deliverEntry_pending rs i

/-- With pairwise-distinct response ids, the first (hence only) response
carrying a given id is found regardless of arrival order. -/
theorem find_key_eq_of_perm {rs rs' : List (Nat × Outcome)} (h : rs.Perm rs')
    (hnd : (rs.map Prod.fst).Nodup) (i : Nat) :
    (rs.find? fun r => r.1 == i) = rs'.find? fun r => r.1 == i := by
  induction h with
  | nil => rfl
  | cons x hperm ih =>
    simp only [List.map_cons, List.nodup_cons] at hnd
    cases hx : ((x.1 == i) : Bool) with
    | true => simp only [List.find?, hx]
    | false =>
      simp only [List.find?, hx]
      exact ih hnd.2
  | swap x y l =>
    simp only [List.map_cons, List.nodup_cons, List.mem_cons, not_or] at hnd
    have hxy : y.1 ≠ x.1 := hnd.1.1
    cases hy : ((y.1 == i) : Bool) with
    | true =>
      have hyi : y.1 = i := by simpa using hy
      have hx : ((x.1 == i) : Bool) = false := by
        simp only [beq_eq_false_iff_ne, ne_eq]
        exact fun hc => hxy (hyi.trans hc.symm)
      simp only [List.find?, hx, hy]
    | false =>
      cases hx : ((x.1 == i) : Bool) with
      | true => simp only [List.find?, hx, hy]
      | false => simp only [List.find?, hx, hy]
  | trans h₁ h₂ ih₁ ih₂ =>
    exact (ih₁ hnd).trans (ih₂ (((h₁.map Prod.fst).nodup_iff).mp hnd))

/-- Claim C1: with the waiters registered by a set of `send` calls, delivering
any list of responses leaves each waiter holding exactly the first response
whose id equals its own request id (so with pairwise-distinct ids, exactly its
own response and no other); a response carrying an id with no registered
waiter changes no waiter's state; and with distinct response ids the final
waiter states are identical for every arrival order. -/
theorem C1_send_correlation (ids : List Nat) (rs rs' : List (Nat × Outcome))
    (t : Table) (j : Nat) (o : Outcome) :
    deliverAll (registerAll ids) rs
        = (ids.map fun i => (i, (rs.find? fun r => r.1 == i).map Prod.snd))
      ∧ (j ∉ t.map Prod.fst → resolve t j o = t)
      ∧ ((rs.map Prod.fst).Nodup → rs.Perm rs' →
          deliverAll (registerAll ids) rs = deliverAll (registerAll ids) rs') := by
  refine ⟨deliverAll_registerAll ids rs, fun h => resolve_not_mem o t h,
    fun hnd hperm => ?_⟩
  rw [deliverAll_registerAll, deliverAll_registerAll]
  apply List.map_congr_left
  intro i _
  rw [find_key_eq_of_perm hperm hnd i]

/-- Witness for C1: requests 5 and 6 outstanding, responses arriving in the
order 6 then 5 resolve each waiter with its own outcome; resolving unknown
id 9 is a no-op; the reversed arrival order gives the same final table. -/
theorem C1_send_correlation_witness :
    deliverAll (registerAll [5, 6]) [(6, Outcome.ack), (5, Outcome.err [7])]
        = [(5, some (Outcome.err [7])), (6, some Outcome.ack)]
      ∧ (9 ∉ ([(1, none)] : Table).map Prod.fst)
      ∧ resolve [(1, none)] 9 Outcome.ack = [(1, none)]
      ∧ deliverAll (registerAll [5, 6]) [(6, Outcome.ack), (5, Outcome.err [7])]
        = deliverAll (registerAll [5, 6]) [(5, Outcome.err [7]), (6, Outcome.ack)] := by
  have h := C1_send_correlation [5, 6] [(6, Outcome.ack), (5, Outcome.err [7])]
    [(5, Outcome.err [7]), (6, Outcome.ack)] [(1, none)] 9 Outcome.ack
  refine ⟨?_, by decide, h.2.1 (by decide), h.2.2 (by decide) (by decide)⟩
  rw [h.1]
  decide

/-- Claim C2, counterexample: with request id 0 registered and pending, a
stream delivering just a `Closed` frame makes the read loop terminate via the
Closed path — but the pending entry is still unresolved afterwards (no
`cancelAll` exists in the code), so the caller awaiting id 0 is never woken. -/
theorem C2_counterexample :
    (process_message_loop decodeMessage [[0, 1, 10]] [] [(0, none)] []).exit
        = LoopExit.closedExit
      ∧ (process_message_loop decodeMessage [[0, 1, 10]] [] [(0, none)] []).table
        = [(0, none)]
      ∧ ((process_message_loop decodeMessage [[0, 1, 10]] [] [(0, none)] []).table.all
          fun e => e.2.isSome) = false := by decide

/-- Claim C2 as amended: decoding and routing a `Closed` notification always
terminates the read loop, even when further chunks are still buffered behind
it — but the correlator table is returned exactly as it was, so requests that
were sent and not yet answered remain pending forever; no force-resolution
with a session-closed error happens. -/
theorem C2_amended (rest : List (List Nat)) (t : Table) (hs : List Handler) :
    process_message_loop decodeMessage ([0, 1, 10] :: rest) [] t hs
      = ⟨LoopExit.closedExit, [], t, (emit hs "closed" Notification.closed).1,
          [Notification.closed], (emit hs "closed" Notification.closed).2, rest⟩ := rfl

/-- Claim C3: feeding any partition of a valid encoded message followed by
the delimiter — each read returning a nonempty chunk — through the read loop
gives exactly the same outcome (same single decoded message, same final
buffer and correlator table) as feeding all the bytes in one chunk; both
equal the one-frame outcome `recvFrame`, so the frame is decoded exactly
once, neither duplicated nor truncated. -/
theorem C3_chunk_invariance (dec : List Nat → Option Message) (p : List Nat) (m : Message)
    (chunks : List (List Nat)) (t : Table)
    (_hdec : dec p = some m) (hnl : NL ∉ p)
    (hpart : chunksJoin chunks = p ++ [NL]) (hne : ∀ c ∈ chunks, c ≠ []) :
    recvAux dec chunks [] t = recvAux dec [p ++ [NL]] [] t
      ∧ recvAux dec chunks [] t = recvFrame dec p t := by
  have h1 := recvAux_feed dec chunks [] p t hne (by simp) hnl hpart
  have hone : ∀ c ∈ [p ++ [NL]], c ≠ [] := by
    intro c hc
    rw [List.mem_singleton] at hc
    subst hc
    exact List.append_ne_nil_of_right_ne_nil p (by simp)
  have h2 := recvAux_feed dec [p ++ [NL]] [] p t hone (by simp) hnl (by simp [chunksJoin])
  simp only [List.nil_append] at h1 h2
  exact ⟨h1.trans h2.symm, h1⟩

/-- Witness for C3: the ipc frame `[0, 2, 7]` split into three chunks decodes
exactly as when fed whole. -/
theorem C3_chunk_invariance_witness :
    decodeMessage [0, 2, 7] = some (Message.notification (Notification.ipc [7]))
      ∧ recvAux decodeMessage [[0], [2], [7, 10]] [] []
        = recvAux decodeMessage [[0, 2, 7, 10]] [] []
      ∧ recvAux decodeMessage [[0], [2], [7, 10]] [] []
        = recvFrame decodeMessage [0, 2, 7] [] := by
  refine ⟨rfl, ?_⟩
  exact C3_chunk_invariance decodeMessage [0, 2, 7]
    (Message.notification (Notification.ipc [7])) [[0], [2], [7, 10]] []
    rfl (by decide) (by decide) (by decide)

/-- Claim C4, counterexample: a stream holding a well-formed `started` frame,
a malformed frame `[7]`, and a well-formed ipc frame, followed by
end-of-stream, routes only the first well-formed frame.  `recv` returns the
`started` notification leaving the rest buffered, and the next `recv` call
reads the end-of-stream chunk before ever re-scanning the buffer, so the
second well-formed frame is dropped — not because of the malformed frame
(which is merely skipped), but the claim's guarantee fails as stated. -/
theorem C4_counterexample :
    decodeMessage [0, 0, 1] = some (Message.notification (Notification.started [1]))
      ∧ decodeMessage [7] = none
      ∧ decodeMessage [0, 2, 5] = some (Message.notification (Notification.ipc [5]))
      ∧ (process_message_loop decodeMessage [[0, 0, 1, 10, 7, 10, 0, 2, 5, 10], []]
          [] [] []).routed = [Notification.started [1]]
      ∧ Notification.ipc [5]
          ∉ (process_message_loop decodeMessage [[0, 0, 1, 10, 7, 10, 0, 2, 5, 10], []]
            [] [] []).routed
      ∧ (process_message_loop decodeMessage [[0, 0, 1, 10, 7, 10, 0, 2, 5, 10], []]
          [] [] []).exit = LoopExit.eof := by decide

/-- Claim C4 as amended: within one buffered scan, a malformed frame between
two well-formed frames is skipped (reported, not fatal) and both surrounding
frames are decoded and routed — here both responses reach the correlator and
the read loop continues with the rest of the stream, unterminated.  A decoded
notification, however, returns control with trailing frames still buffered;
those are re-scanned only after another nonempty chunk arrives, and are
dropped if end-of-stream comes first (see the counterexample — an effect
independent of the malformed frame). -/
theorem C4_skip_malformed (dec : List Nat → Option Message) (p1 bad p2 : List Nat)
    (i1 i2 : Nat) (o1 o2 : Outcome) (t : Table) (rest : List (List Nat))
    (h1 : dec p1 = some (Message.response i1 o1)) (hb : dec bad = none)
    (h2 : dec p2 = some (Message.response i2 o2))
    (hn1 : NL ∉ p1) (hnb : NL ∉ bad) (hn2 : NL ∉ p2) :
    recvAux dec ((p1 ++ NL :: (bad ++ NL :: (p2 ++ [NL]))) :: rest) [] t
      = recvAux dec rest [] (resolve (resolve t i1 o1) i2 o2) := by
  have hch : (p1 ++ NL :: (bad ++ NL :: (p2 ++ [NL]))) ≠ [] := by simp
  conv =>
    lhs
    unfold recvAux
  rw [if_neg hch, List.nil_append, processBuffer_cons_resp _ t hn1 h1,
    processBuffer_cons_err _ _ hnb hb,
    show p2 ++ [NL] = p2 ++ NL :: [] from rfl,
    processBuffer_cons_resp _ _ hn2 h2, processBuffer_nil]

/-- Witness for C4's amended theorem: responses for ids 3 and 4 around the
malformed frame `[7]` both resolve their waiters. -/
theorem C4_skip_malformed_witness :
    decodeMessage [1, 3, 0] = some (Message.response 3 Outcome.ack)
      ∧ decodeMessage [7] = none
      ∧ decodeMessage [1, 4, 0] = some (Message.response 4 Outcome.ack)
      ∧ recvAux decodeMessage
          (([1, 3, 0] ++ NL :: ([7] ++ NL :: ([1, 4, 0] ++ [NL]))) :: [])
          [] [(3, none), (4, none)]
        = recvAux decodeMessage [] []
            (resolve (resolve [(3, none), (4, none)] 3 Outcome.ack) 4 Outcome.ack)
      ∧ resolve (resolve [(3, none), (4, none)] 3 Outcome.ack) 4 Outcome.ack
        = [(3, some Outcome.ack), (4, some Outcome.ack)] := by
  refine ⟨rfl, rfl, rfl, ?_, by decide⟩
  exact C4_skip_malformed decodeMessage [1, 3, 0] [7] [1, 4, 0] 3 4 Outcome.ack Outcome.ack
    [(3, none), (4, none)] [] rfl rfl rfl (by decide) (by decide) (by decide)

/-- Claim C5: registering a handler for the `ipc` event on a session whose
configuration does not enable the capability fails synchronously with the
configuration error, for `on` and `once` alike, touching no state and
exchanging no bytes; any other event kind (or an ipc-enabled configuration)
registers the handler with no message exchange — the only state change is the
appended registry entry. -/
theorem C5_ipc_gate (opts : WebViewOptions) (event : String) (hid : Nat) (st : WVState) :
    ((event = "ipc" ∧ opts.ipc = false) →
        WebView.on opts event hid st = Except.error "IPC is not enabled for this webview"
          ∧ WebView.once opts event hid st
            = Except.error "IPC is not enabled for this webview")
      ∧ (¬(event = "ipc" ∧ opts.ipc = false) →
        WebView.on opts event hid st
            = Except.ok { st with handlers := st.handlers ++ [⟨event, hid, false⟩] }
          ∧ WebView.once opts event hid st
            = Except.ok { st with handlers := st.handlers ++ [⟨event, hid, true⟩] }) := by
  constructor
  · intro h
    constructor <;> simp [WebView.on, WebView.once, h.1, h.2]
  · intro h
    constructor <;> simp [WebView.on, WebView.once, h]

/-- Witness for C5 at concrete inputs. -/
theorem C5_ipc_gate_witness :
    WebView.on ⟨false⟩ "ipc" 0 ⟨true, [], [], [], [], false⟩
        = Except.error "IPC is not enabled for this webview"
      ∧ WebView.once ⟨false⟩ "ipc" 0 ⟨true, [], [], [], [], false⟩
        = Except.error "IPC is not enabled for this webview"
      ∧ WebView.on ⟨false⟩ "started" 1 ⟨true, [], [], [], [], false⟩
        = Except.ok ⟨true, [], [⟨"started", 1, false⟩], [], [], false⟩ := by
  obtain ⟨h1, h2⟩ :=
    (C5_ipc_gate ⟨false⟩ "ipc" 0 ⟨true, [], [], [], [], false⟩).1 ⟨rfl, rfl⟩
  exact ⟨h1, h2,
    ((C5_ipc_gate ⟨false⟩ "started" 1 ⟨true, [], [], [], [], false⟩).2 (by decide)).1⟩

/-- Claim C6 (code bug evidence): the packaged client's `message_id` counter
hands out 0 then 1, but the legacy client `main.py` assigns the constant
`"unique_id"` to every request — two successive sends share one id, against
both the claim and the code's own `Replace with actual ULID implementation`
comment. -/
theorem C6_request_id_bug :
    mainRequestId 0 = mainRequestId 1
      ∧ mainRequestId 0 = "unique_id"
      ∧ msgIdAt 0 0 = 0 ∧ msgIdAt 0 1 = 1 ∧ msgIdAt 0 0 ≠ msgIdAt 0 1 := by decide

/-- Claim C7, counterexample: for a result-expecting operation, an
`ErrResponse` is not surfaced as a remote error carrying the remote message —
`return_result` raises its one generic expected-result error instead. -/
theorem C7_counterexample :
    return_result ResultKind.string (Outcome.err [66])
        = Except.error (UnwrapError.expectedResult ResultKind.string (Outcome.err [66]))
      ∧ return_result ResultKind.string (Outcome.err [66])
        ≠ Except.error (UnwrapError.remote [66]) := ⟨rfl, by simp [return_result]⟩

/-- Claim C7 as amended: for ack-expecting operations `return_ack` yields
void success on `Ack`, a remote error carrying exactly the remote message on
`Err`, and an unexpected-response-type error on a `Result`; for
result-expecting operations `return_result` yields the typed value when the
payload kind matches and otherwise — for a mismatched kind, an `Ack`, or an
`Err` alike — one generic expected-result error embedding the whole received
outcome (not a distinguished remote error); no outcome is ever silently
swallowed by either unwrapper. -/
theorem C7_unwrap (expected : ResultKind) (v : ResultValue) (m : List Nat) (o : Outcome) :
    return_ack Outcome.ack = Except.ok ()
      ∧ return_ack (Outcome.err m) = Except.error (UnwrapError.remote m)
      ∧ return_ack (Outcome.result v)
        = Except.error (UnwrapError.unexpectedResponseType (Outcome.result v))
      ∧ (v.kind = expected → return_result expected (Outcome.result v) = Except.ok v)
      ∧ (v.kind ≠ expected → return_result expected (Outcome.result v)
        = Except.error (UnwrapError.expectedResult expected (Outcome.result v)))
      ∧ return_result expected Outcome.ack
        = Except.error (UnwrapError.expectedResult expected Outcome.ack)
      ∧ return_result expected (Outcome.err m)
        = Except.error (UnwrapError.expectedResult expected (Outcome.err m))
      ∧ ((∃ u, return_ack o = Except.ok u) ∨ ∃ e, return_ack o = Except.error e)
      ∧ ((∃ u, return_result expected o = Except.ok u)
        ∨ ∃ e, return_result expected o = Except.error e) := by
  refine ⟨rfl, rfl, rfl, ?_, ?_, rfl, rfl, ?_, ?_⟩
  · intro h
    simp [return_result, h]
  · intro h
    simp [return_result, h]
  · cases o <;> simp [return_ack]
  · cases o with
    | ack => simp [return_result]
    | err m' => simp [return_result]
    | result v' =>
      by_cases hk : v'.kind = expected <;> simp [return_result, hk]

/-- Witness for C7 at concrete inputs. -/
theorem C7_unwrap_witness :
    (ResultValue.string [72]).kind = ResultKind.string
      ∧ return_result ResultKind.string (Outcome.result (ResultValue.string [72]))
        = Except.ok (ResultValue.string [72])
      ∧ (ResultValue.boolean true).kind ≠ ResultKind.string
      ∧ return_result ResultKind.string (Outcome.result (ResultValue.boolean true))
        = Except.error (UnwrapError.expectedResult ResultKind.string
            (Outcome.result (ResultValue.boolean true))) := by
  refine ⟨rfl, ?_, by decide, ?_⟩
  · exact (C7_unwrap ResultKind.string (ResultValue.string [72]) [] Outcome.ack).2.2.2.1 rfl
  · exact (C7_unwrap ResultKind.string (ResultValue.boolean true) [] Outcome.ack).2.2.2.2.1
      (by decide)

/-- Claim C8, counterexample: a zero-length chunk does return the
end-of-stream marker instead of a frame, but the undelimited remainder is not
discarded — it is left in `self.buffer` untouched (and the code prints only a
generic empty-chunk message, no truncation warning). -/
theorem C8_counterexample :
    recvAux decodeMessage [[1, 2], []] [] [] = (RecvResult.eof, [1, 2], [], [])
      ∧ [1, 2] ≠ ([] : List Nat) := by decide

/-- Claim C8 as amended: on reading a zero-length chunk the read loop returns
the end-of-stream marker rather than a frame, not a fatal error; any
undelimited remainder stays in the internal buffer exactly as it was (it is
never decoded — effectively abandoned rather than explicitly discarded), and
the correlator table is untouched. -/
theorem C8_amended (dec : List Nat → Option Message) (buffer : List Nat) (t : Table)
    (rest : List (List Nat)) :
    recvAux dec ([] :: rest) buffer t = (RecvResult.eof, buffer, t, rest) := rfl

theorem filter_map_pair (l : List Handler) (hid : Nat) (n : Notification) :
    ((l.map fun h => (h.hid, n)).filter fun c => c.1 == hid)
      = (l.filter fun h => h.hid == hid).map fun h => (h.hid, n) := by
  induction l with
  | nil => rfl
  | cons h l ih =>
    by_cases hp : (h.hid == hid) = true
    · simp [List.filter_cons, hp, ih]
    · simp only [Bool.not_eq_true] at hp
      simp [List.filter_cons, hp, ih]

theorem filter_comm_handlers (l : List Handler) (p q : Handler → Bool) :
    (l.filter p).filter q = (l.filter q).filter p := by
  induction l with
  | nil => rfl
  | cons h l ih =>
    by_cases hp : p h = true <;> by_cases hq : q h = true <;>
      simp [List.filter_cons, hp, hq, ih]

/-- Once a registry holds no handler with the given callback id, no later
notification ever invokes that callback (emitting only filters registries). -/
theorem emitSeq_no_hid (hid : Nat) :
    ∀ (ns : List Notification) (reg : List Handler),
      (reg.filter fun h => h.hid == hid) = [] →
      ((emitSeq reg ns).2.filter fun c => c.1 == hid) = [] := by
  intro ns
  induction ns with
  | nil => intro reg _; rfl
  | cons n ns ih =>
    intro reg h
    show ((emit reg n.tag n).2 ++ (emitSeq (emit reg n.tag n).1 ns).2).filter _ = []
    rw [List.filter_append]
    have hcalls : ((emit reg n.tag n).2.filter fun c => c.1 == hid) = [] := by
      show (((reg.filter fun h => h.event == n.tag).map fun h => (h.hid, n)).filter
        fun c => c.1 == hid) = []
      rw [filter_map_pair, filter_comm_handlers, h]
      rfl
    have hreg : ((emit reg n.tag n).1.filter fun h => h.hid == hid) = [] := by
      show ((reg.filter fun h => !(h.event == n.tag && h.once)).filter
        fun h => h.hid == hid) = []
      rw [filter_comm_handlers, h]
      rfl
    rw [hcalls, ih _ hreg]
    rfl

/-- A `once`-registered handler fires on exactly the first notification of
its kind and on no later one. -/
theorem emitSeq_once (k : String) (hid : Nat) :
    ∀ (ns : List Notification) (reg : List Handler),
      (reg.filter fun h => h.hid == hid) = [⟨k, hid, true⟩] →
      ((emitSeq reg ns).2.filter fun c => c.1 == hid)
        = match ns.find? fun n' => n'.tag == k with
          | some n' => [(hid, n')]
          | none => [] := by
  intro ns
  induction ns with
  | nil => intro reg _; rfl
  | cons n ns ih =>
    intro reg h
    show ((emit reg n.tag n).2 ++ (emitSeq (emit reg n.tag n).1 ns).2).filter _ = _
    rw [List.filter_append]
    have hcalls : ((emit reg n.tag n).2.filter fun c => c.1 == hid)
        = if n.tag == k then [(hid, n)] else [] := by
      show (((reg.filter fun h => h.event == n.tag).map fun h => (h.hid, n)).filter
        fun c => c.1 == hid) = _
      rw [filter_map_pair, filter_comm_handlers, h]
      by_cases hkt : n.tag = k
      · simp [List.filter_cons, hkt]
      · simp [List.filter_cons, hkt, Ne.symm hkt]
    rw [hcalls]
    by_cases hkt : n.tag = k
    · have hreg : ((emit reg n.tag n).1.filter fun h => h.hid == hid) = [] := by
        show ((reg.filter fun h => !(h.event == n.tag && h.once)).filter
          fun h => h.hid == hid) = []
        rw [filter_comm_handlers, h]
        simp [List.filter_cons, hkt]
      have hb : ((n.tag == k) : Bool) = true := by simp [hkt]
      rw [emitSeq_no_hid hid ns _ hreg]
      simp [List.find?, hb]
    · have hreg : ((emit reg n.tag n).1.filter fun h => h.hid == hid)
          = [⟨k, hid, true⟩] := by
        show ((reg.filter fun h => !(h.event == n.tag && h.once)).filter
          fun h => h.hid == hid) = _
        rw [filter_comm_handlers, h]
        simp [List.filter_cons, Ne.symm hkt]
      have hb : ((n.tag == k) : Bool) = false := by simp [hkt]
      rw [ih _ hreg]
      simp [List.find?, hb]

/-- An `on`-registered handler fires on every notification of its kind. -/
theorem emitSeq_on (k : String) (hid : Nat) :
    ∀ (ns : List Notification) (reg : List Handler),
      (reg.filter fun h => h.hid == hid) = [⟨k, hid, false⟩] →
      ((emitSeq reg ns).2.filter fun c => c.1 == hid)
        = (ns.filter fun n' => n'.tag == k).map fun n' => (hid, n') := by
  intro ns
  induction ns with
  | nil => intro reg _; rfl
  | cons n ns ih =>
    intro reg h
    show ((emit reg n.tag n).2 ++ (emitSeq (emit reg n.tag n).1 ns).2).filter _ = _
    rw [List.filter_append]
    have hcalls : ((emit reg n.tag n).2.filter fun c => c.1 == hid)
        = if n.tag == k then [(hid, n)] else [] := by
      show (((reg.filter fun h => h.event == n.tag).map fun h => (h.hid, n)).filter
        fun c => c.1 == hid) = _
      rw [filter_map_pair, filter_comm_handlers, h]
      by_cases hkt : n.tag = k
      · simp [List.filter_cons, hkt]
      · simp [List.filter_cons, hkt, Ne.symm hkt]
    have hreg : ((emit reg n.tag n).1.filter fun h => h.hid == hid)
        = [⟨k, hid, false⟩] := by
      show ((reg.filter fun h => !(h.event == n.tag && h.once)).filter
        fun h => h.hid == hid) = _
      rw [filter_comm_handlers, h]
      simp [List.filter_cons]
    rw [hcalls, ih _ hreg]
    by_cases hkt : n.tag = k
    · have hb : ((n.tag == k) : Bool) = true := by simp [hkt]
      simp [List.filter_cons, hb, hkt]
    · have hb : ((n.tag == k) : Bool) = false := by simp [hkt]
      simp [List.filter_cons, hb]

/-- Claim C9: a handler registered with `once` for an event kind (appearing
exactly once in the registry under its callback id) is invoked on exactly the
first subsequently emitted notification of that kind and never again; a
handler registered with `on` is invoked on every subsequently emitted
notification of that kind; and each single emission invokes the matching
handlers in registration (registry) order. -/
theorem C9_on_once (reg : List Handler) (ns : List Notification) (k tg : String)
    (hid : Nat) (n : Notification) :
    ((reg.filter fun h => h.hid == hid) = [⟨k, hid, true⟩] →
        ((emitSeq reg ns).2.filter fun c => c.1 == hid)
          = match ns.find? fun n' => n'.tag == k with
            | some n' => [(hid, n')]
            | none => [])
      ∧ ((reg.filter fun h => h.hid == hid) = [⟨k, hid, false⟩] →
        ((emitSeq reg ns).2.filter fun c => c.1 == hid)
          = (ns.filter fun n' => n'.tag == k).map fun n' => (hid, n'))
      ∧ (emit reg tg n).2 = (reg.filter fun h => h.event == tg).map fun h => (h.hid, n) :=
  ⟨fun h => emitSeq_once k hid ns reg h, fun h => emitSeq_on k hid ns reg h, rfl⟩

/-- Witness for C9: with a `once` ipc handler (id 0) and an `on` ipc handler
(id 1) registered, two successive ipc notifications invoke the once-handler
exactly on the first and the on-handler on both, in order. -/
theorem C9_on_once_witness :
    (([⟨"ipc", 0, true⟩, ⟨"ipc", 1, false⟩] : List Handler).filter fun h => h.hid == 0)
        = [⟨"ipc", 0, true⟩]
      ∧ ((emitSeq [⟨"ipc", 0, true⟩, ⟨"ipc", 1, false⟩]
          [Notification.ipc [1], Notification.ipc [2]]).2.filter fun c => c.1 == 0)
        = [(0, Notification.ipc [1])]
      ∧ ((emitSeq [⟨"ipc", 0, true⟩, ⟨"ipc", 1, false⟩]
          [Notification.ipc [1], Notification.ipc [2]]).2.filter fun c => c.1 == 1)
        = [(1, Notification.ipc [1]), (1, Notification.ipc [2])] := by
  refine ⟨by decide, ?_, ?_⟩
  · have h := (C9_on_once [⟨"ipc", 0, true⟩, ⟨"ipc", 1, false⟩]
      [Notification.ipc [1], Notification.ipc [2]] "ipc" "ipc" 0 Notification.closed).1
      (by decide)
    rw [h]
    decide
  · have h := (C9_on_once [⟨"ipc", 0, true⟩, ⟨"ipc", 1, false⟩]
      [Notification.ipc [1], Notification.ipc [2]] "ipc" "ipc" 1 Notification.closed).2.1
      (by decide)
    rw [h]
    decide

/-- Claim C10: with no started child process (`self.process is None`),
`send`, `recv` and `destroy` all raise the `RuntimeError` immediately — the
error is returned before any waiter registration, stdin write, stream read or
process operation, so no component of the state is touched. -/
theorem C10_unstarted_ops (st : WVState) (reqId : Nat) (reqBytes : List Nat)
    (chunks : List (List Nat)) (h : st.processStarted = false) :
    WebView.send st reqId reqBytes = Except.error "Webview process not started"
      ∧ WebView.recv st chunks = Except.error "Webview process not started"
      ∧ WebView.destroy st = Except.error "Webview process not started" := by
  refine ⟨?_, ?_, ?_⟩ <;> simp [WebView.send, WebView.recv, WebView.destroy, h]

/-- Witness for C10 at a concrete unstarted state. -/
theorem C10_unstarted_ops_witness :
    (⟨false, [], [], [], [], false⟩ : WVState).processStarted = false
      ∧ WebView.send ⟨false, [], [], [], [], false⟩ 0 [1]
        = Except.error "Webview process not started"
      ∧ WebView.recv ⟨false, [], [], [], [], false⟩ [[0, 1, 10]]
        = Except.error "Webview process not started"
      ∧ WebView.destroy ⟨false, [], [], [], [], false⟩
        = Except.error "Webview process not started" :=
  ⟨rfl, C10_unstarted_ops ⟨false, [], [], [], [], false⟩ 0 [1] [[0, 1, 10]] rfl⟩

end Webview
